import Mathlib

/-!
Verification of the dropemail-net domain email-security assessment engine
(src/src/app/api/domain/route.ts) against its natural-language specification.

The TypeScript source is shallowly embedded: pure functions become Lean
functions; network effects (DNS lookups, HTTPS fetches, SMTP probes) are
modelled as explicit outcome values passed in as arguments; JavaScript
numbers that only ever hold integers become Nat/Int.  All definitions are
translated from the source file; claim-side formulas appear only inside
theorem statements.
-/

namespace DropEmail

/-- Severity of a diagnostic issue (types/domain.ts DnsIssueSeverity). -/
inductive Severity where
  | info
  | warning
  | error
deriving DecidableEq, Repr

/-- Diagnostic issue attached to resolver results (types/domain.ts DnsIssue).
In route.ts every issue is constructed with a detail string, so detail is
not optional here. -/
structure DnsIssue where
  severity : Severity
  summary : String
  detail : String
deriving DecidableEq, Repr

/-- DMARC disposition policy values none/quarantine/reject. -/
inductive DPolicy where
  | none
  | quarantine
  | reject
deriving DecidableEq, Repr

/-- DMARC alignment mode: relaxed or strict. -/
inductive Align where
  | r
  | s
deriving DecidableEq, Repr

/-- Which mechanism produced an aligned pass in a simulated scenario. -/
inductive PassBy where
  | dkim
  | spf
  | none
deriving DecidableEq, Repr

/-- SPF resolver result (types/domain.ts SpfResult). -/
structure SpfResult where
  found : Bool
  record : Option String
  validSyntax : Bool
  issues : List DnsIssue
  mechanisms : Option (List String)
  allMechanism : Option String
deriving DecidableEq, Repr

/-- DMARC alignment sub-object of a DmarcResult.  The source casts the raw
tag values, so these are kept as strings. -/
structure DmarcAlignment where
  adkim : String
  aspf : String
deriving DecidableEq, Repr

/-- DMARC resolver result (types/domain.ts DmarcResult). -/
structure DmarcResult where
  found : Bool
  record : Option String
  validSyntax : Bool
  policy : Option DPolicy
  subdomainPolicy : Option DPolicy
  pct : Option Nat
  rua : Option (List String)
  ruf : Option (List String)
  alignment : Option DmarcAlignment
  issues : List DnsIssue
deriving DecidableEq, Repr

/-- Simulation input echo (types/domain.ts DmarcSimulationInput). -/
structure DmarcSimulationInput where
  headerFrom : String
  envelopeFrom : String
  assumedDkimDomain : String
deriving DecidableEq, Repr

/-- One simulated DMARC scenario (types/domain.ts DmarcScenarioOutcome). -/
structure DmarcScenarioOutcome where
  policy : DPolicy
  adkim : Align
  aspf : Align
  alignedPass : Bool
  passBy : PassBy
  disposition : DPolicy
  notes : List String
deriving DecidableEq, Repr

/-- Simulation results (types/domain.ts SimulationResults). -/
structure SimulationResults where
  input : DmarcSimulationInput
  scenarios : List DmarcScenarioOutcome
deriving DecidableEq, Repr

/-- Prefix test on character lists (pattern, then subject). -/
def listHasPre : List Char → List Char → Bool
  | [], _ => true
  | _ :: _, [] => false
  | p :: ps, c :: cs => p == c && listHasPre ps cs

/-- Substring occurrence test on character lists (pattern, then subject). -/
def listHasSub : List Char → List Char → Bool
  | pat, [] => pat.isEmpty
  | pat, s@(_ :: cs) => listHasPre pat s || listHasSub pat cs

/-- JS String.includes. -/
def strIncludes (s pat : String) : Bool := listHasSub pat.toList s.toList

/-- JS String.startsWith. -/
def strStarts (s pat : String) : Bool := listHasPre pat.data s.data

/-- JS String.endsWith. -/
def strEnds (s pat : String) : Bool := listHasPre pat.data.reverse s.data.reverse

/-- JS String.toLowerCase for the ASCII record text handled here, written
as a character-list map (extensionally String.toLower) so that the kernel
can evaluate it on literals. -/
def strToLower (s : String) : String := ⟨s.data.map Char.toLower⟩

/-- The JS regex whitespace class (ASCII part), as used by trim and the
whitespace splits in route.ts. -/
def isWsChar (c : Char) : Bool :=
  c == ' ' || c == '\t' || c == '\n' || c == '\r' ||
  c == Char.ofNat 11 || c == Char.ofNat 12

/-- JS String.trim. -/
def strTrim (s : String) : String :=
  ⟨((s.data.dropWhile isWsChar).reverse.dropWhile isWsChar).reverse⟩

/-- JS String.split with a single-character separator, keeping empty
pieces, written on character lists so the kernel can evaluate it. -/
def splitCharAux (sep : Char) : List Char → List Char → List String
  | [], acc => [String.mk acc.reverse]
  | c :: cs, acc =>
    if c == sep then String.mk acc.reverse :: splitCharAux sep cs []
    else splitCharAux sep cs (c :: acc)

/-- JS s.split(sep) for a one-character separator. -/
def strSplitChar (s : String) (sep : Char) : List String := splitCharAux sep s.data []

mutual

/-- JS s.split(regex of one-or-more whitespace): accumulate the current
piece until a whitespace run starts. -/
def splitWsGo : List Char → List Char → List String
  | [], acc => [String.mk acc.reverse]
  | c :: cs, acc =>
    if isWsChar c then String.mk acc.reverse :: splitWsSkip cs
    else splitWsGo cs (c :: acc)

/-- Skip the remainder of a whitespace run, then resume accumulation. -/
def splitWsSkip : List Char → List String
  | [] => [""]
  | c :: cs => if isWsChar c then splitWsSkip cs else splitWsGo cs [c]

end

/-- JS s.split(/one-or-more-whitespace/). -/
def strSplitWs (s : String) : List String := splitWsGo s.data []

/-- JS Array.prototype.join with a separator, on evaluable strings. -/
def strJoinSep (sep : String) : List String → String
  | [] => ""
  | [x] => x
  | x :: xs => x ++ sep ++ strJoinSep sep xs

/-- route.ts getOrgDomain: organizational domain is the last two non-empty
dot-separated labels; domains with at most two such labels are returned
unchanged. -/
def getOrgDomain (d : String) : String :=
  let parts := (strSplitChar d '.').filter (fun p => p ≠ "")
  if parts.length ≤ 2 then d
  else strJoinSep "." (parts.drop (parts.length - 2))

/-- The adkim alignment options enumerated by simulateDmarc. -/
def adkimOptions : List Align := [.r, .s]

/-- The aspf alignment options enumerated by simulateDmarc. -/
def aspfOptions : List Align := [.r, .s]

/-- The policy options enumerated by simulateDmarc. -/
def policyOptions : List DPolicy := [.none, .quarantine, .reject]

/-- JS String.toUpperCase applied to an alignment tag. -/
def alignUpper : Align → String
  | .r => "R"
  | .s => "S"

/-- route.ts simulateDmarc.  The source destructures only domain, spf,
headerFrom and envelopeFrom from its argument object (the dmarc field is
declared in the type but never read), so those are the parameters here.
The three nested for-loops pushing onto an array are embedded as nested
List.bind/List.map. -/
def simulateDmarc (domain : String) (spf : SpfResult)
    (headerFrom envelopeFrom : String) : SimulationResults :=
  let input : DmarcSimulationInput := ⟨headerFrom, envelopeFrom, domain⟩
  let headerOrg := getOrgDomain headerFrom
  let spfOrg := getOrgDomain envelopeFrom
  let dkimOrg := getOrgDomain domain
  let scenarios : List DmarcScenarioOutcome :=
    policyOptions.flatMap fun p =>
      adkimOptions.flatMap fun adkim =>
        aspfOptions.map fun aspf =>
          let dkimAligned :=
            match adkim with
            | .s => domain == headerFrom
            | .r => dkimOrg == headerOrg
          let spfAligned :=
            match aspf with
            | .s => envelopeFrom == headerFrom
            | .r => spfOrg == headerOrg
          let dkimPassAligned := dkimAligned
          let spfPassAligned := if spf.found then spfAligned else false
          let alignedPass := dkimPassAligned || spfPassAligned
          let disposition := if alignedPass then DPolicy.none else p
          let passBy : PassBy :=
            if dkimPassAligned then .dkim else if spfPassAligned then .spf else .none
          let notes : List String :=
            (if passBy == .none then ["Neither DKIM nor SPF aligned with header From"] else []) ++
            (if passBy == .dkim then
              ["DKIM domain (" ++ domain ++ ") aligned with header From (" ++ headerFrom ++
               ") under " ++ alignUpper adkim ++ " alignment"] else []) ++
            (if passBy == .spf then
              ["SPF envelope From (" ++ envelopeFrom ++ ") aligned with header From (" ++
               headerFrom ++ ") under " ++ alignUpper aspf ++ " alignment"] else [])
          ⟨p, adkim, aspf, alignedPass, passBy, disposition, notes⟩
  ⟨input, scenarios⟩

/-- Alignment test of the specification: exact equality under strict mode,
equality of organizational domains under relaxed mode. -/
def alignedUnder (mode : Align) (a b : String) : Bool :=
  match mode with
  | .s => a == b
  | .r => getOrgDomain a == getOrgDomain b

/-- Claim C1: for every domain, SPF result, headerFrom and envelopeFrom,
simulateDmarc returns exactly 12 scenarios, one per (policy, adkim, aspf)
triple with each triple occurring exactly once; in each scenario DKIM
alignment holds iff the assumed DKIM domain (the input domain) equals
headerFrom exactly (adkim = s) or their organizational domains are equal
(adkim = r); SPF alignment holds iff spf.found and envelopeFrom equals
headerFrom exactly (aspf = s) or their organizational domains are equal
(aspf = r); alignedPass is DKIM-aligned OR SPF-aligned; and the disposition
is none when alignedPass holds and otherwise the scenario's policy value. -/
theorem simulateDmarc_scenarios_spec (domain : String) (spf : SpfResult)
    (headerFrom envelopeFrom : String) :
    let r := simulateDmarc domain spf headerFrom envelopeFrom
    r.scenarios.length = 12 ∧
    r.scenarios.map (fun sc => (sc.policy, sc.adkim, sc.aspf)) =
      [(.none, .r, .r), (.none, .r, .s), (.none, .s, .r), (.none, .s, .s),
       (.quarantine, .r, .r), (.quarantine, .r, .s), (.quarantine, .s, .r),
       (.quarantine, .s, .s),
       (.reject, .r, .r), (.reject, .r, .s), (.reject, .s, .r), (.reject, .s, .s)] ∧
    ∀ sc ∈ r.scenarios,
      sc.alignedPass =
        (alignedUnder sc.adkim domain headerFrom ||
         (spf.found && alignedUnder sc.aspf envelopeFrom headerFrom)) ∧
      sc.disposition = (if sc.alignedPass then DPolicy.none else sc.policy) := by
  intro r
  refine ⟨rfl, rfl, ?_⟩
  intro sc hsc
  simp only [r, simulateDmarc, policyOptions, adkimOptions, aspfOptions,
    List.flatMap_cons, List.flatMap_nil, List.map_cons, List.map_nil, List.append_nil,
    List.cons_append, List.nil_append, List.mem_cons, List.not_mem_nil, or_false] at hsc
  rcases hsc with h | h | h | h | h | h | h | h | h | h | h | h <;> subst h <;>
    exact ⟨by cases hspf : spf.found <;> simp [alignedUnder, hspf], rfl⟩

/-- Probe timing breakdown (types/domain.ts StarttlsCheck.timings). -/
structure ProbeTimings where
  connectMs : Option Nat
  heloMs : Option Nat
  starttlsOfferMs : Option Nat
  tlsHandshakeMs : Option Nat
  mailFromMs : Option Nat
deriving DecidableEq, Repr

/-- Result of one smtpStarttlsProbe call, i.e. the Omit<StarttlsCheck,
'host' | 'issues'> object built by the probe.  The probe initialises all
seven stage booleans to false and flips them as stages succeed, so they
are plain booleans here; the remaining fields stay optional. -/
structure ProbeResult where
  connectOk : Bool
  heloOk : Bool
  starttlsSupported : Bool
  tlsEstablished : Bool
  certAuthorized : Bool
  secureOk : Bool
  mailFromOk : Bool
  tlsProtocol : Option String
  cipher : Option String
  certSubjectCN : Option String
  certValidFrom : Option String
  certValidTo : Option String
  timings : Option ProbeTimings
  transcript : List String
deriving DecidableEq, Repr

/-- route.ts computeTlsScore: a running score accumulates fixed weights for
each true sub-check.  The final Math.round is the identity because the sum
of integers is an integer. -/
def computeTlsScore (r : ProbeResult) : Nat :=
  let score := 0
  let score := score + (if r.connectOk then 20 else 0)
  let score := score + (if r.heloOk then 10 else 0)
  let score := score + (if r.starttlsSupported then 15 else 0)
  let score := score + (if r.tlsEstablished then 15 else 0)
  let score := score + (if r.certAuthorized then 15 else 0)
  let score := score + (if r.secureOk then 10 else 0)
  let score := score + (if r.mailFromOk then 15 else 0)
  score

/-- Claim C2: for every probe result, computeTlsScore returns exactly
20*[connectOk] + 10*[heloOk] + 15*[starttlsSupported] + 15*[tlsEstablished]
+ 15*[certAuthorized] + 10*[secureOk] + 15*[mailFromOk], so every score
lies in [0,100] (the lower bound holds because the value is a Nat). -/
theorem computeTlsScore_spec (r : ProbeResult) :
    computeTlsScore r =
      20 * r.connectOk.toNat + 10 * r.heloOk.toNat + 15 * r.starttlsSupported.toNat +
      15 * r.tlsEstablished.toNat + 15 * r.certAuthorized.toNat +
      10 * r.secureOk.toNat + 15 * r.mailFromOk.toNat ∧
    computeTlsScore r ≤ 100 := by
  obtain ⟨c, h, st, te, ca, so, mf, f1, f2, f3, f4, f5, f6, f7⟩ := r
  cases c <;> cases h <;> cases st <;> cases te <;> cases ca <;> cases so <;> cases mf <;>
    exact ⟨rfl, by norm_num [computeTlsScore]⟩

/-- Reputation level values (types/domain.ts ReputationSummary.level). -/
inductive RepLevel where
  | good
  | fair
  | poor
deriving DecidableEq, Repr

/-- Reputation summary (types/domain.ts ReputationSummary). -/
structure ReputationSummary where
  score : Int
  level : RepLevel
  notes : List String
deriving DecidableEq, Repr

/-- One DNSBL listing entry (types/domain.ts DnsblListing).  The type tag
is the source's 'ip' or 'domain' string. -/
structure DnsblListing where
  list : String
  type : String
  listed : Bool
  responseCode : Option String
  message : String
deriving DecidableEq, Repr

/-- Blacklist results (types/domain.ts BlacklistResults).  The JS record
mapping IP to listings is modelled as an association list; Object.values
reads its values in insertion order. -/
structure BlacklistResults where
  domain : List DnsblListing
  ips : List (String × List DnsblListing)
  issues : List DnsIssue
deriving DecidableEq, Repr

/-- route.ts computeReputation: starts from 100, subtracts fixed penalties,
clamps to [0,100], and derives a level from thresholds.  The sequence of
mutating if-statements is embedded as shadowing lets over (score, notes). -/
def computeReputation (spf : SpfResult) (dmarc : DmarcResult)
    (blacklists : BlacklistResults) : ReputationSummary :=
  let anyIpListed :=
    (blacklists.ips.map Prod.snd).any fun entries => entries.any fun e => e.listed
  let domainListed := blacklists.domain.any fun e => e.listed
  let spfBad := !spf.found || !spf.validSyntax
  let score : Int := 100
  let score := score - (if anyIpListed then 40 else 0)
  let score := score - (if domainListed then 30 else 0)
  let score := score - (if spfBad then 10 else 0)
  let score := score -
    (if !dmarc.found then 15
     else if dmarc.policy == some .none then 8
     else if dmarc.policy == some .quarantine then 2
     else 0)
  let notes : List String :=
    (if anyIpListed then ["One or more MX IPs appear on DNSBLs"] else []) ++
    (if domainListed then ["Domain appears on domain blacklist"] else []) ++
    (if spfBad then ["SPF missing or invalid"] else []) ++
    (if !dmarc.found then ["DMARC missing"]
     else if dmarc.policy == some .none then ["DMARC enforcement not enabled (p=none)"]
     else if dmarc.policy == some .quarantine then ["DMARC partially enforced (p=quarantine)"]
     else [])
  let score := if score < 0 then 0 else score
  let score := if score > 100 then 100 else score
  let level : RepLevel := if score ≥ 80 then .good else if score ≥ 60 then .fair else .poor
  ⟨score, level, notes⟩

/-- Helper: characterisation of the good level threshold. -/
lemma repLevel_good_iff (s : Int) :
    ((if s ≥ 80 then RepLevel.good else if s ≥ 60 then RepLevel.fair else RepLevel.poor) =
      RepLevel.good ↔ 80 ≤ s) := by
  split_ifs <;> simp <;> omega

/-- Helper: characterisation of the fair level band. -/
lemma repLevel_fair_iff (s : Int) :
    ((if s ≥ 80 then RepLevel.good else if s ≥ 60 then RepLevel.fair else RepLevel.poor) =
      RepLevel.fair ↔ 60 ≤ s ∧ s < 80) := by
  split_ifs <;> simp <;> omega

/-- Helper: characterisation of the poor level band. -/
lemma repLevel_poor_iff (s : Int) :
    ((if s ≥ 80 then RepLevel.good else if s ≥ 60 then RepLevel.fair else RepLevel.poor) =
      RepLevel.poor ↔ s < 60) := by
  split_ifs <;> simp <;> omega

/-- Claim C3: computeReputation's score is 100 minus 40 for a listed MX IP,
minus 30 for a listed domain DNSBL entry, minus 10 for missing/invalid SPF,
minus 15 for missing DMARC, else minus 8 for p=none, else minus 2 for
p=quarantine (reject no penalty), clamped to [0,100]; level is good iff
score >= 80, fair iff 60 <= score < 80, poor otherwise. -/
theorem computeReputation_spec (spf : SpfResult) (dmarc : DmarcResult)
    (blacklists : BlacklistResults) :
    let r : ReputationSummary := computeReputation spf dmarc blacklists
    let anyIpListed : Bool :=
      (blacklists.ips.map Prod.snd).any fun entries => entries.any fun e => e.listed
    let domainListed : Bool := blacklists.domain.any fun e => e.listed
    r.score = max 0 (min 100
      (100 - (if anyIpListed then 40 else 0) - (if domainListed then 30 else 0)
        - (if !spf.found || !spf.validSyntax then 10 else 0)
        - (if !dmarc.found then 15
           else if dmarc.policy == some .none then 8
           else if dmarc.policy == some .quarantine then 2 else 0))) ∧
    (r.level = .good ↔ 80 ≤ r.score) ∧
    (r.level = .fair ↔ 60 ≤ r.score ∧ r.score < 80) ∧
    (r.level = .poor ↔ r.score < 60) := by
  refine ⟨?_, ?_, ?_, ?_⟩
  · simp only [computeReputation]
    split_ifs <;> omega
  · simp only [computeReputation]
    exact repLevel_good_iff _
  · simp only [computeReputation]
    exact repLevel_fair_iff _
  · simp only [computeReputation]
    exact repLevel_poor_iff _

/-- One cache entry (route.ts cache map values): a value plus its absolute
expiry time in milliseconds. -/
structure CacheEntry (α : Type) where
  expiresAt : Int
  value : α
deriving DecidableEq, Repr

/-- The module-level cache map, modelled as an association list with unique
keys (the JS Map invariant). -/
def Cache (α : Type) : Type := List (String × CacheEntry α)

/-- JS Map.get on the modelled cache. -/
def mapGet {α : Type} : Cache α → String → Option (CacheEntry α)
  | [], _ => Option.none
  | (k', e') :: rest, k => if k' == k then some e' else mapGet rest k

/-- JS Map.set: update the existing entry in place, or append a new one. -/
def mapSet {α : Type} : Cache α → String → CacheEntry α → Cache α
  | [], k, e => [(k, e)]
  | (k', e') :: rest, k, e =>
    if k' == k then (k, e) :: rest else (k', e') :: mapSet rest k e

/-- JS Map.delete: remove the entry for the key. -/
def mapDelete {α : Type} : Cache α → String → Cache α
  | [], _ => []
  | (k', e') :: rest, k => if k' == k then rest else (k', e') :: mapDelete rest k

/-- route.ts getCached: a missing entry yields undefined; an entry whose
expiresAt is strictly in the past is deleted and yields undefined; otherwise
the stored value is returned.  The mutation of the shared map is made
explicit by returning the updated cache alongside the value. -/
def getCached {α : Type} (cache : Cache α) (key : String) (now : Int) :
    Option α × Cache α :=
  match mapGet cache key with
  | Option.none => (Option.none, cache)
  | some entry =>
    if entry.expiresAt < now then (Option.none, mapDelete cache key)
    else (some entry.value, cache)

/-- route.ts setCached: stores the value with expiry now + ttlMs (the source
defaults ttlMs to 10 minutes; callers of interest pass it explicitly). -/
def setCached {α : Type} (cache : Cache α) (key : String) (value : α)
    (ttlMs : Int) (now : Int) : Cache α :=
  mapSet cache key ⟨now + ttlMs, value⟩

/-- Helper: setting a key makes it retrievable with the stored entry. -/
lemma mapGet_mapSet_self {α : Type} (c : Cache α) (k : String) (e : CacheEntry α) :
    mapGet (mapSet c k e) k = some e := by
  induction c with
  | nil => simp [mapSet, mapGet]
  | cons hd tl ih =>
    obtain ⟨k', e'⟩ := hd
    by_cases h : k' == k
    · simp [mapSet, mapGet, h]
    · simp [mapSet, mapGet, h, ih]

/-- Helper: a key outside the key list of the cache is not retrievable. -/
lemma mapGet_eq_none_of_not_mem {α : Type} (c : Cache α) (k : String)
    (h : k ∉ c.map Prod.fst) : mapGet c k = Option.none := by
  induction c with
  | nil => rfl
  | cons hd tl ih =>
    obtain ⟨k', e'⟩ := hd
    simp only [List.map_cons, List.mem_cons] at h
    push_neg at h
    have hne : (k' == k) = false := by
      simp [beq_eq_false_iff_ne]
      exact fun hk => h.1 hk.symm
    simp [mapGet, hne, ih h.2]

/-- Helper: membership in the key list after a set. -/
lemma mem_keys_mapSet {α : Type} (c : Cache α) (k a : String) (e : CacheEntry α) :
    a ∈ (mapSet c k e).map Prod.fst ↔ a ∈ c.map Prod.fst ∨ a = k := by
  induction c with
  | nil => simp [mapSet]
  | cons hd tl ih =>
    obtain ⟨k', e'⟩ := hd
    by_cases h : k' == k
    · have hk : k' = k := by simpa [beq_iff_eq] using h
      subst hk
      simp [mapSet, h]
      tauto
    · simp [mapSet, h, ih]
      tauto

/-- Helper: setting preserves key uniqueness. -/
lemma nodup_keys_mapSet {α : Type} (c : Cache α) (k : String) (e : CacheEntry α)
    (h : (c.map Prod.fst).Nodup) : ((mapSet c k e).map Prod.fst).Nodup := by
  induction c with
  | nil => simp [mapSet]
  | cons hd tl ih =>
    obtain ⟨k', e'⟩ := hd
    simp only [List.map_cons, List.nodup_cons] at h
    by_cases hk : k' == k
    · have hk' : k' = k := by simpa [beq_iff_eq] using hk
      have hset : mapSet ((k', e') :: tl) k e = (k, e) :: tl := by simp [mapSet, hk]
      rw [hset, List.map_cons, List.nodup_cons]
      exact ⟨hk' ▸ h.1, h.2⟩
    · have hne : k' ≠ k := by simpa [beq_eq_false_iff_ne] using hk
      simp only [mapSet, hk, Bool.false_eq_true, if_false, List.map_cons, List.nodup_cons]
      refine ⟨?_, ih h.2⟩
      rw [mem_keys_mapSet]
      rintro (hmem | rfl)
      · exact h.1 hmem
      · exact hne rfl

/-- Helper: under unique keys, deleting a key makes it unretrievable. -/
lemma mapGet_mapDelete_self {α : Type} (c : Cache α) (k : String)
    (h : (c.map Prod.fst).Nodup) : mapGet (mapDelete c k) k = Option.none := by
  induction c with
  | nil => rfl
  | cons hd tl ih =>
    obtain ⟨k', e'⟩ := hd
    simp only [List.map_cons, List.nodup_cons] at h
    by_cases hk : k' == k
    · have hk' : k' = k := by simpa [beq_iff_eq] using hk
      have hdel : mapDelete ((k', e') :: tl) k = tl := by simp [mapDelete, hk]
      rw [hdel]
      exact mapGet_eq_none_of_not_mem tl k (hk' ▸ h.1)
    · simp [mapDelete, mapGet, hk, ih h.2]

/-- Claim C8: for every key, value and ttl > 0, setCached then getCached at
any time strictly before the stored expiry returns the value; at any time
after the expiry has passed, getCached returns undefined and removes the
entry from the cache.  The cache is required to satisfy the JS Map
invariant of unique keys. -/
theorem cache_set_get_spec {α : Type} (c : Cache α) (k : String) (v : α)
    (ttl t0 t1 : Int) (hnodup : (c.map Prod.fst).Nodup) (_httl : 0 < ttl) :
    let c1 := setCached c k v ttl t0
    (t1 < t0 + ttl → (getCached c1 k t1).1 = some v) ∧
    (t0 + ttl < t1 →
      (getCached c1 k t1).1 = Option.none ∧
      mapGet (getCached c1 k t1).2 k = Option.none) := by
  intro c1
  have hget : mapGet c1 k = some ⟨t0 + ttl, v⟩ := mapGet_mapSet_self c k _
  constructor
  · intro hlt
    simp only [getCached, hget]
    rw [if_neg (by omega)]
  · intro hgt
    simp only [getCached, hget]
    rw [if_pos (by omega)]
    exact ⟨rfl, mapGet_mapDelete_self c1 k (nodup_keys_mapSet c k _ hnodup)⟩

/-- Witness for C8 at a concrete input: key "k", value 7, ttl 100 set at
time 0; read at time 50 yields the value, read at time 200 yields absence
and the entry is gone. -/
theorem cache_set_get_spec_witness :
    (getCached (setCached ([] : Cache Nat) "k" 7 100 0) "k" 50).1 = some 7 ∧
    (getCached (setCached ([] : Cache Nat) "k" 7 100 0) "k" 200).1 = Option.none ∧
    mapGet (getCached (setCached ([] : Cache Nat) "k" 7 100 0) "k" 200).2 "k" =
      Option.none := by
  refine ⟨(cache_set_get_spec [] "k" 7 100 0 50 (by simp) (by norm_num)).1 (by norm_num), ?_, ?_⟩
  · exact ((cache_set_get_spec [] "k" 7 100 0 200 (by simp) (by norm_num)).2 (by norm_num)).1
  · exact ((cache_set_get_spec [] "k" 7 100 0 200 (by simp) (by norm_num)).2 (by norm_num)).2

/-- Outcome of an external operation (DNS lookup, HTTPS fetch): either a
result value or a thrown error, whose message/DNS code is carried as the
string produced by route.ts toDnsError. -/
inductive DnsOutcome (α : Type) where
  | ok (v : α)
  | err (e : String)
deriving DecidableEq, Repr

/-- DKIM key type tag (types/domain.ts DkimResult.keyType). -/
inductive KeyType where
  | rsa
  | ed25519
  | unknown
deriving DecidableEq, Repr

/-- Character class [A-Za-z0-9+/=] of the p= capture in parseDkimKey. -/
def isB64Char (c : Char) : Bool :=
  c.isAlpha || c.isDigit || c = '+' || c = '/' || c = '='

/-- First match of the regex p=([A-Za-z0-9+/=]+) over a character list:
scan left to right for a position where "p=" is followed by at least one
class character, and capture the maximal class run.  Returns the captured
group. -/
def findPEq : List Char → Option (List Char)
  | 'p' :: '=' :: c :: rest =>
    if isB64Char c then some ((c :: rest).takeWhile isB64Char)
    else findPEq ('=' :: c :: rest)
  | _ :: rest => findPEq rest
  | [] => Option.none

/-- Byte length of Node's Buffer.from(s, 'base64') for a string over the
base64 alphabet: characters before the first '=' padding are decoded at
3 bytes per 4 characters, rounding down. -/
def b64DecodedLen (s : List Char) : Nat :=
  ((s.takeWhile fun c => c ≠ '=').length * 3) / 4

/-- Math.round((L * 8) * 0.73) for a byte length L.  The exact value
L*8*0.73 = 146L/25 is never a half-integer and the double-precision
product is far closer to it than the 1/50 gap to the nearest rounding
boundary, so rounding the exact rational, floor(146L/25 + 1/2), is the
value the JS code computes. -/
def dkimRoundBits (lenBytes : Nat) : Nat := (292 * lenBytes + 25) / 50

/-- The {keyType, keyLengthBits} object parseDkimKey returns. -/
structure DkimKeyInfo where
  keyType : KeyType
  keyLengthBits : Option Nat
deriving DecidableEq, Repr

/-- route.ts parseDkimKey: key type from case-insensitive k= substring
tests (ed25519 test second, so it overrides), RSA key length estimated
from the base64-decoded byte length of the first p= capture.  Buffer.from
never throws on a string over the captured alphabet, so the catch branch
is unreachable. -/
def parseDkimKey (record : String) : DkimKeyInfo :=
  let t := strToLower record
  let keyType : KeyType := .unknown
  let keyType := if strIncludes t "k=rsa" then .rsa else keyType
  let keyType := if strIncludes t "k=ed25519" then .ed25519 else keyType
  match findPEq record.toList with
  | some cap =>
    let keyLengthBits := dkimRoundBits (b64DecodedLen cap)
    ⟨keyType, if keyType == .rsa then some keyLengthBits else Option.none⟩
  | Option.none => ⟨keyType, Option.none⟩

/-- Claim C9: for every DKIM TXT record containing a p=<base64> tag whose
k= tag denotes RSA (and not ed25519, which the source lets override),
parseDkimKey returns keyLengthBits = round(L * 8 * 0.73) where L is the
byte length of the base64 decoding of the p= value; and for a non-RSA key
type keyLengthBits is absent. -/
theorem parseDkimKey_spec (record : String) :
    (∀ cap, strIncludes (strToLower record) "k=rsa" = true →
      strIncludes (strToLower record) "k=ed25519" = false →
      findPEq record.toList = some cap →
      (parseDkimKey record).keyType = .rsa ∧
      (parseDkimKey record).keyLengthBits = some (dkimRoundBits (b64DecodedLen cap))) ∧
    ((parseDkimKey record).keyType ≠ .rsa → (parseDkimKey record).keyLengthBits =
      Option.none) := by
  constructor
  · intro cap hrsa hed hfind
    have hfind' : findPEq record.data = some cap := hfind
    simp [parseDkimKey, hrsa, hed, hfind']
  · intro hne
    by_cases hrsa : strIncludes (strToLower record) "k=rsa" <;>
      by_cases hed : strIncludes (strToLower record) "k=ed25519" <;>
      rcases hfind : findPEq record.toList with _ | cap <;>
      have hfind' : findPEq record.data = _ := hfind <;>
      simp_all [parseDkimKey]

/-- Witness for C9 at a concrete record: 16 base64 characters, thus
L = 12 decoded bytes and round(12 * 8 * 0.73) = round(70.08) = 70 bits. -/
theorem parseDkimKey_spec_witness :
    (parseDkimKey "v=DKIM1; k=rsa; p=MIGfMA0GCSqGSIb3").keyType = .rsa ∧
    (parseDkimKey "v=DKIM1; k=rsa; p=MIGfMA0GCSqGSIb3").keyLengthBits = some 70 := by
  have h := (parseDkimKey_spec "v=DKIM1; k=rsa; p=MIGfMA0GCSqGSIb3").1
    ("MIGfMA0GCSqGSIb3".toList) (by decide) (by decide) (by decide)
  refine ⟨h.1, ?_⟩
  rw [h.2]
  decide

/-- The {listed, responseCode} object returned by dnsblListed. -/
structure DnsblStatus where
  listed : Bool
  responseCode : Option String
deriving DecidableEq, Repr

/-- route.ts dnsblListed: any nonempty A-record answer means listed with
the first address as response code; an empty answer, a resolution error
(NXDOMAIN/SERVFAIL) or a timeout means not listed.  Total by construction,
matching the catch-all in the source. -/
def dnsblListed (outcome : DnsOutcome (List String)) : DnsblStatus :=
  match outcome with
  | .ok addrs =>
    match addrs with
    | a :: _ => ⟨true, some a⟩
    | [] => ⟨false, Option.none⟩
  | .err _ => ⟨false, Option.none⟩

/-- The three domain DNSBL zones of resolveBlacklists. -/
def domainLists : List String :=
  ["dbl.spamhaus.org", "multi.surbl.org", "uribl.com"]

/-- The eleven IP DNSBL zones of resolveBlacklists. -/
def ipLists : List String :=
  ["zen.spamhaus.org", "sbl.spamhaus.org", "xbl.spamhaus.org", "pbl.spamhaus.org",
   "b.barracudacentral.org", "bl.spamcop.net", "dnsbl.sorbs.net", "bl.spamrats.com",
   "ips.backscatterer.org", "bl.blocklist.de", "dnsbl-1.uceprotect.net"]

/-- Query host for a domain DNSBL check (resolveBlacklists): domain
prepended to the list zone. -/
def dnsblDomainHost (domain list : String) : String := domain ++ "." ++ list

/-- Query host for an IP DNSBL check (resolveBlacklists): the dot-reversed
IP octets prepended to the list zone. -/
def dnsblIpHost (ip list : String) : String :=
  strJoinSep "." (strSplitChar ip '.').reverse ++ "." ++ list

/-- Claim C6: dnsblListed returns listed=true with responseCode equal to
the first returned address whenever the A lookup yields at least one
address, and listed=false with no responseCode on an empty answer or a
failed/timed-out lookup (it is a total function, hence never throws);
query names are <domain>.<listzone> for the 3 domain lists and the
dot-reversed IP octets prefixed to the listzone for the 11 IP lists. -/
theorem dnsblListed_spec :
    (∀ a as, dnsblListed (.ok (a :: as)) = ⟨true, some a⟩) ∧
    dnsblListed (.ok []) = ⟨false, Option.none⟩ ∧
    (∀ e, dnsblListed (.err e) = ⟨false, Option.none⟩) ∧
    domainLists.length = 3 ∧ ipLists.length = 11 ∧
    (∀ domain list, dnsblDomainHost domain list = domain ++ "." ++ list) ∧
    (∀ ip list, dnsblIpHost ip list =
      strJoinSep "." (strSplitChar ip '.').reverse ++ "." ++ list) ∧
    dnsblIpHost "203.0.113.7" "zen.spamhaus.org" = "7.113.0.203.zen.spamhaus.org" := by
  exact ⟨fun a as => rfl, rfl, fun e => rfl, rfl, rfl,
    fun domain list => rfl, fun ip list => rfl, by decide⟩

/-- record.replace(/one-or-more-whitespace/g, ' '): collapse every
whitespace run to one space. -/
def normWsAux : Bool → List Char → List Char
  | _, [] => []
  | prevWs, c :: rest =>
    if isWsChar c then
      if prevWs then normWsAux true rest else ' ' :: normWsAux true rest
    else c :: normWsAux false rest

/-- record.replace(/one-or-more-whitespace/g, ' ') on a string. -/
def normWs (s : String) : String := ⟨normWsAux false s.data⟩

/-- Strip a literal pattern off the front of a subject, returning the
remainder on success. -/
def stripPre : List Char → List Char → Option (List Char)
  | [], s => some s
  | _ :: _, [] => Option.none
  | p :: ps, c :: cs => if p == c then stripPre ps cs else Option.none

/-- All remainders after consuming a nonempty run of characters satisfying
keep: the nondeterministic semantics of a one-or-more repetition of a
character class. -/
def classTakes (keep : Char → Bool) : List Char → List (List Char)
  | [] => []
  | c :: rest => if keep c then rest :: classTakes keep rest else []

/-- The qualifier class [-+~?] of the SPF validation regex. -/
def isQualChar (c : Char) : Bool := c == '-' || c == '+' || c == '~' || c == '?'

/-- All remainders after one mechanism alternative of the SPF validation
regex at route.ts line 513, in the regex's alternation order:
a, mx, ip4:, ip6:, include:, exists:, ptr, all, redirect=, where the four
argument-taking alternatives consume a nonempty run of the class keep
(the source writes the class [^s]; the subject is lowercased first, so
case-insensitivity is literal matching on lowercase). -/
def spfMechRems (keep : Char → Bool) (s : List Char) : List (List Char) :=
  let lit : String → List (List Char) := fun p =>
    match stripPre p.data s with
    | some r => [r]
    | Option.none => []
  let arg : String → List (List Char) := fun p =>
    match stripPre p.data s with
    | some r => classTakes keep r
    | Option.none => []
  lit "a" ++ lit "mx" ++ arg "ip4:" ++ arg "ip6:" ++ arg "include:" ++
    arg "exists:" ++ lit "ptr" ++ lit "all" ++ arg "redirect="

/-- Existence-of-match semantics for the regex tail
(ws+ qualifier? mechanism)* ws* end-of-string:
either the rest is all whitespace (the star stops), or a whitespace run is
consumed (maximally: no mechanism alternative can start with whitespace,
so shorter runs never extend to a match), an optional qualifier, one
mechanism alternative, and the tail repeats.  Fuel bounds the recursion;
every iteration consumes at least one character. -/
def spfTailMatch (keep : Char → Bool) : Nat → List Char → Bool
  | _, [] => true
  | 0, _ :: _ => false
  | fuel + 1, s =>
    s.all isWsChar ||
    (match s with
     | c :: rest =>
       isWsChar c &&
       (let t := rest.dropWhile isWsChar
        let t2opts : List (List Char) :=
          match t with
          | c2 :: r2 => if isQualChar c2 then [r2, t] else [t]
          | [] => [t]
        t2opts.any fun t2 => (spfMechRems keep t2).any fun r => spfTailMatch keep fuel r)
     | [] => true)

/-- The test of the anchored case-insensitive SPF validation regex of
route.ts line 513 against record.replace(/ws+/g, ' '): the subject is
lowercased and matched against the lowercase pattern; the character class
written [^s] in the source matches every character other than the letter s. -/
def spfRegexTest (record : String) : Bool :=
  let s := (strToLower (normWs record)).data
  match stripPre "v=spf1".data s with
  | some rest => spfTailMatch (fun c => !(c == 's')) rest.length rest
  | Option.none => false

/-- The same validation regex with the character class the surrounding code
evidently intends, non-whitespace (the regex-escape class of \\S), in place
of the literal class [^s].  Used only to exhibit the divergence for C4. -/
def spfRegexTestIntended (record : String) : Bool :=
  let s := (strToLower (normWs record)).data
  match stripPre "v=spf1".data s with
  | some rest => spfTailMatch (fun c => !isWsChar c) rest.length rest
  | Option.none => false

/-- The test of /^[-+~?]?include:/i on a mechanism token. -/
def isIncludeMech (m : String) : Bool :=
  let l := strToLower m
  match l.data with
  | c :: rest =>
    if isQualChar c then listHasPre "include:".data rest
    else listHasPre "include:".data (c :: rest)
  | [] => false

/-- The test of /^\\+?all$/i on the all mechanism token. -/
def isPlusAll (m : String) : Bool :=
  let l := strToLower m
  l == "all" || l == "+all"

/-- route.ts resolveSpf, with the TXT lookup outcome made explicit.  The
error branch models the catch: the only awaited operation is the TXT
lookup itself, so record/validSyntax still hold their initial values
there; the .err payload carries the toDnsError string. -/
def resolveSpf (domain : String) (txtOutcome : DnsOutcome (List (List String))) :
    SpfResult :=
  match txtOutcome with
  | .err e =>
    { found := false, record := Option.none, validSyntax := false,
      issues := [⟨.error, "Failed to resolve SPF", e⟩],
      mechanisms := Option.none, allMechanism := Option.none }
  | .ok txtRecords =>
    let flat := (txtRecords.map fun chunks => strJoinSep "" chunks).map strTrim
    match flat.find? fun t => strStarts (strToLower t) "v=spf1" with
    | Option.none =>
      { found := false, record := Option.none, validSyntax := false,
        issues := [⟨.error, "No SPF record found",
          "Publish a TXT record at " ++ domain ++ " with \"v=spf1 ...\""⟩],
        mechanisms := Option.none, allMechanism := Option.none }
    | some record =>
      let validSyntax := spfRegexTest record
      let issues1 : List DnsIssue :=
        if validSyntax then []
        else [⟨.error, "SPF syntax looks invalid",
          "Check for stray characters or malformed mechanisms."⟩]
      let tokens := (strSplitWs record).drop 1
      let mechanisms := tokens.filter fun t => !(strStarts t "redirect=")
      let allMechanism := tokens.find? fun t => strEnds (strToLower t) "all"
      let issues2 : List DnsIssue :=
        match allMechanism with
        | Option.none => [⟨.warning, "No all mechanism at the end",
            "Add ~all or -all at the end to define default behavior."⟩]
        | some am =>
          if isPlusAll am then
            [⟨.error, "SPF ends with +all (permits anything)",
              "Use ~all (softfail) or -all (fail) to restrict senders."⟩]
          else []
      let includeCount := (mechanisms.filter isIncludeMech).length
      let issues3 : List DnsIssue :=
        if includeCount > 10 then
          [⟨.warning, "Too many include mechanisms",
            "SPF has a 10-DNS-lookup limit; consider flattening."⟩]
        else []
      { found := true, record := some record, validSyntax := validSyntax,
        issues := issues1 ++ issues2 ++ issues3,
        mechanisms := some mechanisms, allMechanism := allMechanism }

/-- Claim C4 (code bug): for the single TXT record
"v=spf1 include:spf.example.com -all" resolveSpf returns found=true,
allMechanism="-all" and no all-related issue as claimed, but
validSyntax=false, not true: the validation regex writes the character
class [^s] where non-whitespace was evidently intended, so the include
argument, which starts with the letter s, cannot be consumed; under the
intended non-whitespace class the same record validates. -/
theorem resolveSpf_c4_failing_input :
    (resolveSpf "example.com" (.ok [["v=spf1 include:spf.example.com -all"]])).found
      = true ∧
    (resolveSpf "example.com" (.ok [["v=spf1 include:spf.example.com -all"]])).allMechanism
      = some "-all" ∧
    (resolveSpf "example.com" (.ok [["v=spf1 include:spf.example.com -all"]])).issues
      = [⟨.error, "SPF syntax looks invalid",
          "Check for stray characters or malformed mechanisms."⟩] ∧
    (resolveSpf "example.com" (.ok [["v=spf1 include:spf.example.com -all"]])).validSyntax
      = false ∧
    spfRegexTestIntended "v=spf1 include:spf.example.com -all" = true := by
  decide

/-- Geolocation payload produced by geolocateIp (JS numbers as rationals;
the geolocation service response is opaque to the claims considered). -/
structure GeoData where
  country : Option String
  countryCode : Option String
  region : Option String
  city : Option String
  org : Option String
  asn : Option String
  latitude : Option Rat
  longitude : Option Rat
deriving DecidableEq, Repr

/-- One MX record with optional resolved addresses and per-IP geolocation
(types/domain.ts MxRecordInfo). -/
structure MxRecordInfo where
  exchange : String
  priority : Nat
  addresses : Option (List String)
  geo : Option (List (String × GeoData))
deriving DecidableEq, Repr

/-- The mx sub-object of DomainAnalysis. -/
structure MxResult where
  found : Bool
  records : List MxRecordInfo
  issues : List DnsIssue
deriving DecidableEq, Repr

/-- The sort comparator (a, b) => a.priority - b.priority of
resolveMxWithGeo, as the boolean ascending-priority order of the stable
sort it induces. -/
def mxLe (a b : String × Nat) : Bool := a.2 ≤ b.2

/-- route.ts resolveMxWithGeo.  The MX lookup outcome is explicit; the
read-through caches are elided by giving the per-exchange A-lookup
(dnsResolve4Safe, total: failures degrade to []) and the per-IP
geolocation (retryOperation(geolocateIp), total: failures degrade to the
empty object) as oracle functions whose value a cache hit or miss equally
returns.  The per-record try/catch is unreachable because every operation
inside it is total.  The bounded-concurrency mapLimit over addresses is
written as the plain map it computes (claim C10). -/
def resolveMxWithGeo (mxOutcome : DnsOutcome (List (String × Nat)))
    (mxHostLimit : Option Nat) (addrOf : String → List String)
    (geoOf : String → GeoData) : MxResult :=
  match mxOutcome with
  | .err e =>
    { found := false, records := [],
      issues := [⟨.error, "Failed to resolve MX", e⟩] }
  | .ok records =>
    let sortedAll := records.mergeSort mxLe
    let sorted :=
      match mxHostLimit with
      | some n => sortedAll.take n
      | Option.none => sortedAll
    let mxRecords : List MxRecordInfo := sorted.map fun r =>
      let addresses := addrOf r.1
      { exchange := r.1, priority := r.2,
        addresses := some addresses,
        geo := if addresses.length > 0 then
            some (addresses.map fun ip => (ip, geoOf ip))
          else Option.none }
    let issues : List DnsIssue :=
      if mxRecords.length = 0 then
        [⟨.error, "No MX records found",
          "Add MX records pointing to your mail server/provider."⟩]
      else []
    { found := mxRecords.length > 0, records := mxRecords, issues := issues }

/-- MTA-STS policy file fields (types/domain.ts MtastsPolicy).  The source
casts raw tag values, so version and mode stay strings. -/
structure MtastsPolicy where
  version : Option String
  mode : Option String
  maxAge : Option Int
  mx : List String
  raw : String
deriving DecidableEq, Repr

/-- MTA-STS resolver result (types/domain.ts MtastsResult). -/
structure MtastsResult where
  foundTxt : Bool
  id : Option String
  foundPolicy : Bool
  policy : Option MtastsPolicy
  issues : List DnsIssue
deriving DecidableEq, Repr

/-- Probe options handed to checkStarttls by the orchestrator. -/
structure StarttlsOpts where
  quickTest : Bool
  compelTls : Bool
  directTls : Bool
  ports : List Nat
  stopAfter : Option String
deriving DecidableEq, Repr

/-- One per-host/port STARTTLS check (types/domain.ts StarttlsCheck).
The catch branch of checkStarttls leaves every stage flag other than
connectOk undefined, so those are optional here; daneOk is always the
string "not tested". -/
structure StarttlsCheck where
  host : String
  ip : Option String
  mxPref : Option Nat
  answer : Option String
  connectOk : Bool
  heloOk : Option Bool
  starttlsSupported : Option Bool
  tlsEstablished : Option Bool
  tlsProtocol : Option String
  cipher : Option String
  certSubjectCN : Option String
  certAuthorized : Option Bool
  certValidFrom : Option String
  certValidTo : Option String
  secureOk : Option Bool
  mailFromOk : Option Bool
  mtastsOk : Option Bool
  daneOk : String
  timings : Option ProbeTimings
  transcript : Option (List String)
  score : Option Nat
  issues : List DnsIssue
deriving DecidableEq, Repr

/-- Outcome of one smtpStarttlsProbe call: the probe resolves with a
result, or throws before its promise machinery is reached (the modelled
exception path of the try/catch in checkStarttls). -/
inductive ProbeOutcome where
  | ok (r : ProbeResult)
  | err (msg : String)
deriving DecidableEq, Repr

/-- The mtastsOk truthiness test of checkStarttls:
mtasts?.foundPolicy and a mode that exists, is nonempty and is not none. -/
def mtastsOkOf (mtasts : Option MtastsResult) : Bool :=
  match mtasts with
  | Option.none => false
  | some m =>
    m.foundPolicy &&
    (match m.policy with
     | Option.none => false
     | some p =>
       match p.mode with
       | Option.none => false
       | some mode => !(mode == "") && !(mode == "none"))

/-- opts.ports.length ? opts.ports : [25]. -/
def portsEffective (ports : List Nat) : List Nat :=
  if ports.length ≠ 0 then ports else [25]

/-- The body of one port iteration of checkStarttls: a successful probe
yields a full check with the spread probe result, mtastsOk, daneOk "not
tested" and the computed score; a thrown probe yields the catch branch's
check with connectOk=false and a warning issue. -/
def starttlsRunPort (mtasts : Option MtastsResult)
    (probe : String → Nat → ProbeOutcome) (mx : MxRecordInfo) (port : Nat) :
    StarttlsCheck :=
  let ip : Option String :=
    match mx.addresses with
    | Option.none => Option.none
    | some l => l.head?
  let answer := ip.map fun i => i ++ ":" ++ toString port
  match probe mx.exchange port with
  | .ok r =>
    { host := mx.exchange, ip := ip, mxPref := some mx.priority, answer := answer,
      connectOk := r.connectOk, heloOk := some r.heloOk,
      starttlsSupported := some r.starttlsSupported,
      tlsEstablished := some r.tlsEstablished, tlsProtocol := r.tlsProtocol,
      cipher := r.cipher, certSubjectCN := r.certSubjectCN,
      certAuthorized := some r.certAuthorized, certValidFrom := r.certValidFrom,
      certValidTo := r.certValidTo, secureOk := some r.secureOk,
      mailFromOk := some r.mailFromOk, mtastsOk := some (mtastsOkOf mtasts),
      daneOk := "not tested", timings := r.timings,
      transcript := some r.transcript, score := some (computeTlsScore r),
      issues := [] }
  | .err msg =>
    { host := mx.exchange, ip := ip, mxPref := some mx.priority, answer := answer,
      connectOk := false, heloOk := Option.none, starttlsSupported := Option.none,
      tlsEstablished := Option.none, tlsProtocol := Option.none,
      cipher := Option.none, certSubjectCN := Option.none,
      certAuthorized := Option.none, certValidFrom := Option.none,
      certValidTo := Option.none, secureOk := Option.none,
      mailFromOk := Option.none, mtastsOk := Option.none,
      daneOk := "not tested", timings := Option.none, transcript := Option.none,
      score := Option.none,
      issues := [⟨.warning, "SMTP connection failed", msg⟩] }

/-- route.ts checkStarttls: at most 1 MX host in quick-test mode and at
most 3 otherwise; per host, quick-test mode breaks out of the port loop
after the first iteration (if (opts.quickTest) break), otherwise every
effective port is attempted.  The probe call, including the option wiring
(directTls only on port 465, stopAfter forced to EHLO2 in quick mode), is
abstracted by the probe oracle.  The outer issues list is never pushed to. -/
def checkStarttls (mxRecords : List MxRecordInfo) (mtasts : Option MtastsResult)
    (opts : StarttlsOpts) (probe : String → Nat → ProbeOutcome) :
    List StarttlsCheck × List DnsIssue :=
  let mxLimit := if opts.quickTest then 1 else 3
  let targets := mxRecords.take mxLimit
  let checks := targets.flatMap fun mx =>
    let ports := portsEffective opts.ports
    if opts.quickTest then
      match ports with
      | [] => []
      | p :: _ => [starttlsRunPort mtasts probe mx p]
    else ports.map (starttlsRunPort mtasts probe mx)
  (checks, [])

/-- Helper: a flatMap of singletons is a map. -/
lemma flatMap_singleton_eq_map {α β : Type} (l : List α) (f : α → β) :
    (l.flatMap fun x => [f x]) = l.map f := by
  induction l with
  | nil => rfl
  | cons a t ih => simp [List.flatMap_cons, ih]

/-- Helper: the length of a flatMap whose inner lists are maps of one
fixed list. -/
lemma length_flatMap_map {α β γ : Type} (l : List α) (ps : List β) (f : α → β → γ) :
    (l.flatMap fun x => ps.map (f x)).length = l.length * ps.length := by
  induction l with
  | nil => simp
  | cons a t ih => simp [List.flatMap_cons, ih, Nat.succ_mul, Nat.add_comm]

/-- Helper: the effective port list is never empty. -/
lemma portsEffective_ne_nil (ports : List Nat) : portsEffective ports ≠ [] := by
  unfold portsEffective
  split
  · intro h
    simp_all
  · simp

/-- Claim C7 (counterexample to the claim as stated): in quick-test mode
with ports [25, 465] against one MX host whose probe always throws,
checkStarttls produces exactly one check, which is unsuccessful
(connectOk = false) — it stopped after the first attempted port even
though no port had succeeded, whereas stopping only after the first
successful port would have attempted port 465 as well (the same inputs in
full mode produce two checks). -/
theorem checkStarttls_c7_counterexample :
    (checkStarttls [⟨"mx1.example.com", 10, Option.none, Option.none⟩] Option.none
        ⟨true, false, false, [25, 465], Option.none⟩
        (fun _ _ => .err "connection refused")).1.length = 1 ∧
    (∀ c ∈ (checkStarttls [⟨"mx1.example.com", 10, Option.none, Option.none⟩] Option.none
        ⟨true, false, false, [25, 465], Option.none⟩
        (fun _ _ => .err "connection refused")).1, c.connectOk = false) ∧
    (checkStarttls [⟨"mx1.example.com", 10, Option.none, Option.none⟩] Option.none
        ⟨false, false, false, [25, 465], Option.none⟩
        (fun _ _ => .err "connection refused")).1.length = 2 := by
  refine ⟨rfl, ?_, rfl⟩
  intro c hc
  simp [checkStarttls, portsEffective, starttlsRunPort] at hc
  subst hc
  rfl

/-- Claim C7 as amended: when quickTest is set, checkStarttls probes only
the first (highest-priority, since resolveMxWithGeo returns records sorted
ascending by priority) MX record and stops after the first attempted port,
successful or not; when quickTest is not set, it probes up to 3 MX hosts
and attempts every effective port on each host. -/
theorem checkStarttls_spec (mxRecords : List MxRecordInfo)
    (mtasts : Option MtastsResult) (opts : StarttlsOpts)
    (probe : String → Nat → ProbeOutcome) :
    let r := checkStarttls mxRecords mtasts opts probe
    (opts.quickTest = true →
      r.1 = (mxRecords.take 1).map fun mx =>
        starttlsRunPort mtasts probe mx (portsEffective opts.ports).headI) ∧
    (opts.quickTest = false →
      r.1 = (mxRecords.take 3).flatMap fun mx =>
        (portsEffective opts.ports).map (starttlsRunPort mtasts probe mx)) ∧
    (opts.quickTest = true → r.1.length = min mxRecords.length 1) ∧
    (opts.quickTest = false →
      r.1.length = min mxRecords.length 3 * (portsEffective opts.ports).length) ∧
    (∀ out lim addrOf geoOf,
      ((resolveMxWithGeo out lim addrOf geoOf).records.map fun m => m.priority).Pairwise
        (· ≤ ·)) := by
  have hq : opts.quickTest = true →
      (checkStarttls mxRecords mtasts opts probe).1 = (mxRecords.take 1).map fun mx =>
        starttlsRunPort mtasts probe mx (portsEffective opts.ports).headI := by
    intro h
    rcases hpe : portsEffective opts.ports with _ | ⟨p, rest⟩
    · exact absurd hpe (portsEffective_ne_nil opts.ports)
    · simp only [checkStarttls, h, if_true, hpe, List.headI]
      exact flatMap_singleton_eq_map _ _
  have hf : opts.quickTest = false →
      (checkStarttls mxRecords mtasts opts probe).1 = (mxRecords.take 3).flatMap fun mx =>
        (portsEffective opts.ports).map (starttlsRunPort mtasts probe mx) := by
    intro h
    simp only [checkStarttls, h, Bool.false_eq_true, if_false]
  refine ⟨hq, hf, ?_, ?_, ?_⟩
  · intro h
    rw [hq h, List.length_map, List.length_take, Nat.min_comm]
  · intro h
    rw [hf h, length_flatMap_map, List.length_take, Nat.min_comm]
  · intro out lim addrOf geoOf
    cases out with
    | err e => simp [resolveMxWithGeo]
    | ok rs =>
      have htrans : ∀ a b c : String × Nat,
          mxLe a b = true → mxLe b c = true → mxLe a c = true := by
        intro a b c hab hbc
        simp only [mxLe, decide_eq_true_eq] at *
        omega
      have htotal : ∀ a b : String × Nat, (mxLe a b || mxLe b a) = true := by
        intro a b
        simp only [mxLe, Bool.or_eq_true, decide_eq_true_eq]
        omega
      have hs := List.sorted_mergeSort htrans htotal rs
      have hs' : (rs.mergeSort mxLe).Pairwise (fun a b : String × Nat => a.2 ≤ b.2) := by
        refine hs.imp ?_
        intro a b hab
        simpa [mxLe] using hab
      have key : ∀ l : List (String × Nat),
          l.Pairwise (fun a b : String × Nat => a.2 ≤ b.2) →
          ((l.map fun r =>
            ({ exchange := r.1, priority := r.2, addresses := some (addrOf r.1),
               geo := if (addrOf r.1).length > 0 then
                   some ((addrOf r.1).map fun ip => (ip, geoOf ip))
                 else Option.none } : MxRecordInfo)).map fun m => m.priority).Pairwise
            (· ≤ ·) := by
        intro l hl
        rw [List.map_map, List.pairwise_map]
        exact hl
      cases lim with
      | none =>
        simp only [resolveMxWithGeo]
        exact key _ hs'
      | some n =>
        simp only [resolveMxWithGeo]
        exact key _ (hs'.sublist (List.take_sublist n _))

/-- Witness for C7 at concrete inputs: one MX host, ports [25, 465]; in
quick mode the single check is the first port's, in full mode both ports
of the host are attempted. -/
theorem checkStarttls_spec_witness :
    (checkStarttls [⟨"mx1.example.com", 10, Option.none, Option.none⟩] Option.none
        ⟨true, false, false, [25, 465], Option.none⟩ (fun _ _ => .err "refused")).1 =
      ([(⟨"mx1.example.com", 10, Option.none, Option.none⟩ : MxRecordInfo)].take 1).map
        (fun mx => starttlsRunPort Option.none (fun _ _ => .err "refused") mx
          (portsEffective [25, 465]).headI) ∧
    (checkStarttls [⟨"mx1.example.com", 10, Option.none, Option.none⟩] Option.none
        ⟨false, false, false, [25, 465], Option.none⟩ (fun _ _ => .err "refused")).1 =
      ([(⟨"mx1.example.com", 10, Option.none, Option.none⟩ : MxRecordInfo)].take 3).flatMap
        (fun mx => (portsEffective [25, 465]).map
          (starttlsRunPort Option.none (fun _ _ => .err "refused") mx)) := by
  exact ⟨(checkStarttls_spec _ _ _ _).1 rfl, (checkStarttls_spec _ _ _ _).2.1 rfl⟩

/-- Shared state of the route.ts mapLimit worker pool: the shared index
counter idx, the results array (unfilled slots as none), and the
per-worker loop-exit flags. -/
structure MLState (β : Type) where
  idx : Nat
  results : List (Option β)
  done : List Bool
deriving DecidableEq, Repr

/-- One scheduled step of worker w in route.ts mapLimit.  An active worker
atomically draws current = idx++ and either stores
results[current] = fn(items[current], current), or, when current is past
the end, breaks out of its loop (done).  The await between the draw and
the store only defers the store, and each slot is written by exactly one
worker, so drawing and storing are modelled as one step; a step naming a
finished or nonexistent worker is a no-op (such schedule entries stand
for moments when that worker is suspended). -/
def mlStep {α β : Type} (items : List α) (fn : α → Nat → β) (s : MLState β)
    (w : Nat) : MLState β :=
  match s.done[w]? with
  | some false =>
    let current := s.idx
    match items[current]? with
    | some a =>
      { idx := current + 1,
        results := s.results.set current (some (fn a current)),
        done := s.done }
    | Option.none =>
      { idx := current + 1, results := s.results, done := s.done.set w true }
  | _ => s

/-- Initial mapLimit state: idx 0, new Array(items.length) with every slot
unfilled, and Math.min(limit, items.length) workers, none finished. -/
def mlInit {β : Type} (itemsLength limit : Nat) : MLState β :=
  ⟨0, List.replicate itemsLength Option.none,
    List.replicate (min limit itemsLength) false⟩

/-- A complete interleaved execution of mapLimit under a schedule: the
sequence of worker activations applied to the initial state. -/
def mlRun {α β : Type} (items : List α) (fn : α → Nat → β) (limit : Nat)
    (sched : List Nat) : MLState β :=
  sched.foldl (mlStep items fn) (mlInit items.length limit)

/-- The invariant of the mapLimit pool: array and pool sizes are fixed,
every slot below the shared counter is filled with fn at its index, and a
finished worker has seen the counter past the end. -/
def MLInv {α β : Type} (items : List α) (fn : α → Nat → β) (limit : Nat)
    (s : MLState β) : Prop :=
  s.results.length = items.length ∧
  s.done.length = min limit items.length ∧
  (∀ (i : Nat) (a : α), i < s.idx → items[i]? = some a →
    s.results[i]? = some (some (fn a i))) ∧
  (∀ w : Nat, s.done[w]? = some true → items.length ≤ s.idx)

/-- Helper: the initial state satisfies the invariant. -/
lemma mlInit_inv {α β : Type} (items : List α) (fn : α → Nat → β) (limit : Nat) :
    MLInv items fn limit (mlInit items.length limit : MLState β) := by
  refine ⟨by simp [mlInit], by simp [mlInit], ?_, ?_⟩
  · intro i a hi
    simp [mlInit] at hi
  · intro w hw
    simp only [mlInit] at hw
    rw [List.getElem?_replicate] at hw
    split at hw <;> simp_all

/-- Helper: every step preserves the invariant. -/
lemma mlStep_inv {α β : Type} (items : List α) (fn : α → Nat → β) (limit : Nat)
    (s : MLState β) (w : Nat) (h : MLInv items fn limit s) :
    MLInv items fn limit (mlStep items fn s w) := by
  obtain ⟨h1, h2, h3, h4⟩ := h
  rcases hdw : s.done[w]? with _ | b
  · simpa only [MLInv, mlStep, hdw] using ⟨h1, h2, h3, h4⟩
  cases b
  · rcases hit : items[s.idx]? with _ | a
    · simp only [MLInv, mlStep, hdw, hit]
      refine ⟨h1, by rw [List.length_set]; exact h2, ?_, ?_⟩
      · intro i a' hi hia
        rcases Nat.lt_succ_iff_lt_or_eq.mp hi with hlt | heq
        · exact h3 i a' hlt hia
        · subst heq
          rw [hit] at hia
          exact absurd hia (by simp)
      · intro w' hw'
        have hlen : items.length ≤ s.idx := List.getElem?_eq_none_iff.mp hit
        omega
    · simp only [MLInv, mlStep, hdw, hit]
      refine ⟨by rw [List.length_set]; exact h1, h2, ?_, ?_⟩
      · intro i a' hi hia
        have hidx : s.idx < items.length := (List.getElem?_eq_some.mp hit).1
        rw [List.getElem?_set]
        rcases Nat.lt_succ_iff_lt_or_eq.mp hi with hlt | heq
        · rw [if_neg (by omega)]
          exact h3 i a' hlt hia
        · subst heq
          rw [if_pos rfl, if_pos (by omega)]
          rw [hit] at hia
          cases hia
          rfl
      · intro w' hw'
        exact Nat.le_succ_of_le (h4 w' hw')
  · simpa only [MLInv, mlStep, hdw] using ⟨h1, h2, h3, h4⟩

/-- Helper: the invariant holds after any schedule. -/
lemma mlRun_inv {α β : Type} (items : List α) (fn : α → Nat → β) (limit : Nat)
    (sched : List Nat) : MLInv items fn limit (mlRun items fn limit sched) := by
  suffices hgen : ∀ (s : MLState β), MLInv items fn limit s →
      MLInv items fn limit (sched.foldl (mlStep items fn) s) by
    exact hgen _ (mlInit_inv items fn limit)
  induction sched with
  | nil => exact fun s hs => hs
  | cons w rest ih =>
    intro s hs
    exact ih _ (mlStep_inv items fn limit s w hs)

/-- Claim C10: for every item list, every concurrency limit of at least 1,
every per-item function and every schedule under which the worker pool
runs to completion (all workers finished), mapLimit's result array has the
same length as items and its i-th slot holds fn(items[i], i) — it is
extensionally the plain sequential indexed map, independent of the limit
and of the interleaving. -/
theorem mapLimit_spec {α β : Type} (items : List α) (limit : Nat)
    (fn : α → Nat → β) (sched : List Nat) (hlim : 1 ≤ limit)
    (hdone : ((mlRun items fn limit sched).done.all fun b => b) = true) :
    (mlRun items fn limit sched).results.length = items.length ∧
    (∀ i a, items[i]? = some a →
      (mlRun items fn limit sched).results[i]? = some (some (fn a i))) ∧
    (mlRun items fn limit sched).results = items.mapIdx fun i a => some (fn a i) := by
  obtain ⟨h1, h2, h3, h4⟩ := mlRun_inv items fn limit sched
  have hfill : ∀ i a, items[i]? = some a →
      (mlRun items fn limit sched).results[i]? = some (some (fn a i)) := by
    intro i a hia
    have hi : i < items.length := (List.getElem?_eq_some.mp hia).1
    have hw : 0 < (mlRun items fn limit sched).done.length := by
      rw [h2]
      omega
    obtain ⟨b, hb⟩ : ∃ b, (mlRun items fn limit sched).done[0]? = some b :=
      ⟨_, List.getElem?_eq_getElem hw⟩
    have hbtrue : b = true := List.all_eq_true.mp hdone b (List.getElem?_mem hb)
    have hidx : items.length ≤ (mlRun items fn limit sched).idx :=
      h4 0 (by rwa [hbtrue] at hb)
    exact h3 i a (lt_of_lt_of_le hi hidx) hia
  refine ⟨h1, hfill, ?_⟩
  apply List.ext_getElem?
  intro n
  rw [List.getElem?_mapIdx]
  rcases hn : items[n]? with _ | a
  · have hlen : items.length ≤ n := List.getElem?_eq_none_iff.mp hn
    rw [List.getElem?_eq_none (by omega)]
    rfl
  · rw [hfill n a hn]
    rfl

/-- Witness for C10 at a concrete run: items [10, 20], limit 1, the
schedule in which the single worker acts three times (two draws and the
loop exit); the pool completes and each slot holds fn(items[i], i). -/
theorem mapLimit_spec_witness :
    (mlRun [10, 20] (fun a i => a + i) 1 [0, 0, 0]).results[0]? = some (some 10) ∧
    (mlRun [10, 20] (fun a i => a + i) 1 [0, 0, 0]).results[1]? = some (some 21) ∧
    (mlRun [10, 20] (fun a i => a + i) 1 [0, 0, 0]).results.length = 2 := by
  have h := mapLimit_spec [10, 20] 1 (fun a i => a + i) [0, 0, 0] (by decide) (by decide)
  exact ⟨h.2.1 0 10 (by decide), h.2.1 1 20 (by decide), h.1⟩

/-- JS text.split(/carriage-return? newline/): split on a newline,
optionally preceded by a carriage return; a lone carriage return does not
split. -/
def splitLinesAux : List Char → List Char → List String
  | [], acc => [String.mk acc.reverse]
  | '\r' :: '\n' :: rest, acc => String.mk acc.reverse :: splitLinesAux rest []
  | '\n' :: rest, acc => String.mk acc.reverse :: splitLinesAux rest []
  | c :: rest, acc => splitLinesAux rest (c :: acc)

/-- JS text.split(/carriage-return? newline/) on a string. -/
def strSplitLines (s : String) : List String := splitLinesAux s.data []

/-- The semicolon key=value record parsing shared by the DMARC, BIMI,
MTA-STS TXT and TLS-RPT resolvers: split on semicolons, trim, drop empty
parts, split each part at its first equals signs into a lowercased key and
the equals-rejoined trimmed value. -/
def kvEntries (record : String) : List (String × String) :=
  (((strSplitChar record ';').map strTrim).filter fun p => p ≠ "").map fun p =>
    match strSplitChar p '=' with
    | [] => ("", "")
    | k :: rest => (strToLower k, strTrim (strJoinSep "=" rest))

/-- Object.fromEntries followed by property access: the last entry for a
key wins. -/
def kvLookup (entries : List (String × String)) (key : String) : Option String :=
  (entries.reverse.find? fun p => p.1 == key).map Prod.snd

/-- JS (value || default) on an optional string: undefined and the empty
string are falsy. -/
def jsOrElse (o : Option String) (d : String) : String :=
  match o with
  | some s => if s == "" then d else s
  | Option.none => d

/-- JS (value || undefined) on an optional string. -/
def jsOrUndef (o : Option String) : Option String :=
  match o with
  | some s => if s == "" then Option.none else some s
  | Option.none => Option.none

/-- Modelled: JS Number() restricted to the strings exercised here — after
trimming, the empty string is 0 and an optionally signed run of decimal
digits is that integer; everything else is NaN (none; the NaN a caller
would store where the model has none is not distinguished further). -/
def jsNumberInt? (s : String) : Option Int :=
  let t := strTrim s
  if t == "" then some 0
  else
    let (sign, digits) : Int × List Char :=
      match t.data with
      | '-' :: rest => (-1, rest)
      | '+' :: rest => (1, rest)
      | l => (1, l)
    if digits ≠ [] ∧ digits.all Char.isDigit then
      some (sign * (String.mk digits).toNat!)
    else Option.none

/-- DKIM resolver result (types/domain.ts DkimResult). -/
structure DkimResult where
  checked : Bool
  selector : Option String
  found : Bool
  record : Option String
  keyType : Option KeyType
  keyLengthBits : Option Nat
  issues : List DnsIssue
deriving DecidableEq, Repr

/-- BIMI resolver result (types/domain.ts BimiResult). -/
structure BimiResult where
  found : Bool
  selector : String
  record : Option String
  logoUrl : Option String
  authority : Option String
  validSvg : Option Bool
  issues : List DnsIssue
deriving DecidableEq, Repr

/-- TLS-RPT resolver result (types/domain.ts TlsRptResult). -/
structure TlsRptResult where
  found : Bool
  record : Option String
  rua : Option (List String)
  issues : List DnsIssue
deriving DecidableEq, Repr

/-- An HTTP response as observed by the resolvers: the ok flag, the status
code, the content-type header (null as none) and the body text. -/
structure FetchResponse where
  ok : Bool
  status : Nat
  contentType : Option String
  body : String
deriving DecidableEq, Repr

/-- Outcome of a fetch: a response, or a thrown error (timeout/abort),
whose message is carried as a string. -/
inductive FetchOutcome where
  | ok (r : FetchResponse)
  | err (e : String)
deriving DecidableEq, Repr

/-- The none/quarantine/reject tag parse shared by the p and sp handling
of resolveDmarc. -/
def parseDPolicy (p : String) : Option DPolicy :=
  if p == "none" then some .none
  else if p == "quarantine" then some .quarantine
  else if p == "reject" then some .reject
  else Option.none

/-- route.ts resolveDmarc, with the TXT lookup outcome explicit.  The only
awaited operation is the lookup, so the catch branch still has the initial
record/validSyntax/... values; the .err payload carries the toDnsError
string. -/
def resolveDmarc (domain : String)
    (txtOutcome : DnsOutcome (List (List String))) : DmarcResult :=
  let name := "_dmarc." ++ domain
  match txtOutcome with
  | .err e =>
    { found := false, record := Option.none, validSyntax := false,
      policy := Option.none, subdomainPolicy := Option.none, pct := Option.none,
      rua := Option.none, ruf := Option.none, alignment := Option.none,
      issues := [⟨.error, "Failed to resolve DMARC", e⟩] }
  | .ok txtRecords =>
    let flat := (txtRecords.map fun chunks => strJoinSep "" chunks).map strTrim
    match flat.find? fun t => strStarts (strToLower t) "v=dmarc1" with
    | Option.none =>
      { found := false, record := Option.none, validSyntax := false,
        policy := Option.none, subdomainPolicy := Option.none, pct := Option.none,
        rua := Option.none, ruf := Option.none, alignment := Option.none,
        issues := [⟨.error, "No DMARC record found",
          "Publish a TXT record at " ++ name ++ " with \"v=DMARC1; p=...\""⟩] }
    | some record =>
      let validSyntax := strStarts (strToLower record) "v=dmarc1;"
      let issues1 : List DnsIssue :=
        if validSyntax then []
        else [⟨.error, "DMARC syntax looks invalid",
          "Record must start with \"v=DMARC1;\""⟩]
      let kv := kvEntries record
      let p := strToLower (jsOrElse (kvLookup kv "p") "")
      let policy := parseDPolicy p
      let issues2 : List DnsIssue :=
        if policy == Option.none then
          [⟨.warning, "No valid policy (p) found",
            "Set p=quarantine or p=reject for protection."⟩]
        else []
      let sp := strToLower (jsOrElse (kvLookup kv "sp") "")
      let subdomainPolicy := parseDPolicy sp
      let pct : Option Nat :=
        match kvLookup kv "pct" with
        | some v =>
          if v == "" then Option.none
          else
            match jsNumberInt? v with
            | some n => some (min 100 (max 0 n)).toNat
            | Option.none => Option.none
        | Option.none => Option.none
      let rua : Option (List String) :=
        match kvLookup kv "rua" with
        | some v =>
          if v == "" then Option.none
          else some (((strSplitChar v ',').map strTrim).filter fun x => x ≠ "")
        | Option.none => Option.none
      let ruf : Option (List String) :=
        match kvLookup kv "ruf" with
        | some v =>
          if v == "" then Option.none
          else some (((strSplitChar v ',').map strTrim).filter fun x => x ≠ "")
        | Option.none => Option.none
      let adkim := jsOrElse (kvLookup kv "adkim") "r"
      let aspf := jsOrElse (kvLookup kv "aspf") "r"
      let alignment : Option DmarcAlignment := some ⟨adkim, aspf⟩
      let issues3 : List DnsIssue :=
        if policy == some .none then
          [⟨.warning, "DMARC policy is none",
            "Consider p=quarantine or p=reject to enforce protection."⟩]
        else []
      { found := true, record := some record, validSyntax := validSyntax,
        policy := policy, subdomainPolicy := subdomainPolicy, pct := pct,
        rua := rua, ruf := ruf, alignment := alignment,
        issues := issues1 ++ issues2 ++ issues3 }

/-- The JS falsy test on the optional selector argument of resolveDkim:
undefined or the empty string. -/
def selectorFalsy (selector : Option String) : Bool :=
  match selector with
  | Option.none => true
  | some s => s == ""

/-- route.ts resolveDkim, with the TXT lookup outcome explicit.  With a
falsy selector the lookup is never performed.  The record is the first
TXT matching the v=DKIM1; version tag, else the first TXT at all; an
empty string there is falsy and counts as not found. -/
def resolveDkim (domain : String) (selector : Option String)
    (txtOutcome : DnsOutcome (List (List String))) : DkimResult :=
  if selectorFalsy selector then
    { checked := false, selector := Option.none, found := false,
      record := Option.none, keyType := Option.none, keyLengthBits := Option.none,
      issues := [⟨.info, "DKIM selector not provided",
        "Provide a selector to check DKIM (e.g., selector1)."⟩] }
  else
    let name := (jsOrElse selector "") ++ "._domainkey." ++ domain
    match txtOutcome with
    | .err e =>
      { checked := true, selector := selector, found := false,
        record := Option.none, keyType := Option.none, keyLengthBits := Option.none,
        issues := [⟨.error, "Failed to resolve DKIM", e⟩] }
    | .ok txtRecords =>
      let flat := (txtRecords.map fun chunks => strJoinSep "" chunks).map strTrim
      let record0 : Option String :=
        match flat.find? fun t => strStarts (strToLower t) "v=dkim1;" with
        | some r => some r
        | Option.none => flat.head?
      match record0 with
      | some r =>
        if r == "" then
          { checked := true, selector := selector, found := false,
            record := Option.none, keyType := Option.none,
            keyLengthBits := Option.none,
            issues := [⟨.error, "No DKIM record found",
              "Expected TXT record at " ++ name⟩] }
        else
          let info := parseDkimKey r
          { checked := true, selector := selector, found := true,
            record := some r, keyType := some info.keyType,
            keyLengthBits := info.keyLengthBits, issues := [] }
      | Option.none =>
        { checked := true, selector := selector, found := false,
          record := Option.none, keyType := Option.none,
          keyLengthBits := Option.none,
          issues := [⟨.error, "No DKIM record found",
            "Expected TXT record at " ++ name⟩] }

/-- The test of /^https?:\\/\\//i on the BIMI logo URL. -/
def isHttpUrl (u : String) : Bool :=
  strStarts (strToLower u) "http://" || strStarts (strToLower u) "https://"

/-- route.ts resolveBimi, with the TXT lookup outcome and the logo fetch
outcome explicit.  A thrown logo fetch lands in the resolver's outer
catch, so the whole result degrades to found=false with the catch's error
issue.  The version-tag/first-record fallback and the falsy test on it
match resolveDkim. -/
def resolveBimi (domain : String) (selector : String)
    (txtOutcome : DnsOutcome (List (List String)))
    (fetchOut : String → FetchOutcome) : BimiResult :=
  let name := selector ++ "._bimi." ++ domain
  match txtOutcome with
  | .err e =>
    { found := false, selector := selector, record := Option.none,
      logoUrl := Option.none, authority := Option.none, validSvg := Option.none,
      issues := [⟨.error, "Failed to resolve BIMI", e⟩] }
  | .ok txtRecords =>
    let flat := (txtRecords.map fun chunks => strJoinSep "" chunks).map strTrim
    let record0 : Option String :=
      match flat.find? fun t => strStarts (strToLower t) "v=bimi1;" with
      | some r => some r
      | Option.none => flat.head?
    match record0 with
    | Option.none =>
      { found := false, selector := selector, record := Option.none,
        logoUrl := Option.none, authority := Option.none, validSvg := Option.none,
        issues := [⟨.error, "No BIMI record found", "Expected TXT at " ++ name⟩] }
    | some record =>
      if record == "" then
        { found := false, selector := selector, record := Option.none,
          logoUrl := Option.none, authority := Option.none, validSvg := Option.none,
          issues := [⟨.error, "No BIMI record found", "Expected TXT at " ++ name⟩] }
      else
        let kv := kvEntries record
        let logoUrl := kvLookup kv "l"
        let authority := kvLookup kv "a"
        match logoUrl with
        | some u =>
          if u ≠ "" ∧ isHttpUrl u then
            match fetchOut u with
            | .err e =>
              { found := false, selector := selector, record := Option.none,
                logoUrl := Option.none, authority := Option.none,
                validSvg := Option.none,
                issues := [⟨.error, "Failed to resolve BIMI", e⟩] }
            | .ok res =>
              if res.ok then
                let ct := jsOrElse res.contentType ""
                let validSvg : Option Bool :=
                  if strIncludes ct "image/svg" then some true
                  else some (strIncludes (strToLower (strTrim res.body)) "<svg")
                { found := true, selector := selector, record := some record,
                  logoUrl := logoUrl, authority := authority, validSvg := validSvg,
                  issues := [] }
              else
                { found := true, selector := selector, record := some record,
                  logoUrl := logoUrl, authority := authority,
                  validSvg := Option.none,
                  issues := [⟨.warning, "Unable to fetch BIMI logo URL",
                    toString res.status⟩] }
          else if u ≠ "" then
            { found := true, selector := selector, record := some record,
              logoUrl := logoUrl, authority := authority, validSvg := Option.none,
              issues := [⟨.warning, "BIMI logo URL is not http(s)", u⟩] }
          else
            { found := true, selector := selector, record := some record,
              logoUrl := logoUrl, authority := authority, validSvg := Option.none,
              issues := [] }
        | Option.none =>
          { found := true, selector := selector, record := some record,
            logoUrl := Option.none, authority := authority, validSvg := Option.none,
            issues := [] }

/-- route.ts resolveMtasts, with the TXT lookup outcome and the policy
file fetch outcome explicit.  The two halves are independent; their
issues accumulate in order. -/
def resolveMtasts (domain : String)
    (txtOutcome : DnsOutcome (List (List String)))
    (fetchOut : FetchOutcome) : MtastsResult :=
  let txtName := "_mta-sts." ++ domain
  let txtPart : Bool × Option String × List DnsIssue :=
    match txtOutcome with
    | .err e => (false, Option.none, [⟨.error, "Failed to resolve MTA-STS TXT", e⟩])
    | .ok txtRecords =>
      let flat := (txtRecords.map fun chunks => strJoinSep "" chunks).map strTrim
      let rec0 : Option String :=
        match flat.find? fun t => strStarts (strToLower t) "v=stsv1;" with
        | some r => some r
        | Option.none => flat.head?
      match rec0 with
      | some r =>
        if r == "" then
          (false, Option.none,
            [⟨.warning, "No MTA-STS TXT found", "Expected TXT at " ++ txtName⟩])
        else
          let kv := kvEntries r
          (true, kvLookup kv "id", [])
      | Option.none =>
        (false, Option.none,
          [⟨.warning, "No MTA-STS TXT found", "Expected TXT at " ++ txtName⟩])
  let policyPart : Bool × Option MtastsPolicy × List DnsIssue :=
    match fetchOut with
    | .err e => (false, Option.none, [⟨.error, "Error fetching MTA-STS policy", e⟩])
    | .ok res =>
      if res.ok then
        let text := res.body
        let lines := ((strSplitLines text).map strTrim).filter fun l =>
          l ≠ "" && !(strStarts l "#")
        let entries := (lines.map fun line =>
          match strSplitChar line ':' with
          | [] => ("", "")
          | k :: rest => (strToLower (strTrim k), strTrim (strJoinSep ":" rest))).filter
            fun p => p.1 ≠ ""
        let version := jsOrUndef (kvLookup entries "version")
        let mode := jsOrUndef (kvLookup entries "mode")
        let maxAge : Option Int :=
          match kvLookup entries "max_age" with
          | some v => if v == "" then Option.none else jsNumberInt? v
          | Option.none => Option.none
        let mx := (lines.filter fun l => strStarts (strToLower l) "mx:").map fun l =>
          strTrim (match strSplitChar l ':' with
            | _ :: x :: _ => x
            | _ => "")
        (true, some ⟨version, mode, maxAge, mx, text⟩, [])
      else
        (false, Option.none,
          [⟨.warning, "Failed to fetch MTA-STS policy", toString res.status⟩])
  { foundTxt := txtPart.1, id := txtPart.2.1, foundPolicy := policyPart.1,
    policy := policyPart.2.1, issues := txtPart.2.2 ++ policyPart.2.2 }

/-- route.ts resolveTlsRpt, with the TXT lookup outcome explicit. -/
def resolveTlsRpt (domain : String)
    (txtOutcome : DnsOutcome (List (List String))) : TlsRptResult :=
  let name := "_smtp._tls." ++ domain
  match txtOutcome with
  | .err e =>
    { found := false, record := Option.none, rua := Option.none,
      issues := [⟨.error, "Failed to resolve TLS-RPT", e⟩] }
  | .ok txtRecords =>
    let flat := (txtRecords.map fun chunks => strJoinSep "" chunks).map strTrim
    let record0 : Option String :=
      match flat.find? fun t => strStarts (strToLower t) "v=tlsrptv1;" with
      | some r => some r
      | Option.none => flat.head?
    match record0 with
    | Option.none =>
      { found := false, record := Option.none, rua := Option.none,
        issues := [⟨.warning, "No TLS-RPT record found", "Expected TXT at " ++ name⟩] }
    | some record =>
      if record == "" then
        { found := false, record := Option.none, rua := Option.none,
          issues := [⟨.warning, "No TLS-RPT record found",
            "Expected TXT at " ++ name⟩] }
      else
        let kv := kvEntries record
        let rua := ((strSplitChar (jsOrElse (kvLookup kv "rua") "") ',').map
          strTrim).filter fun x => x ≠ ""
        { found := true, record := some record, rua := some rua, issues := [] }

/-- Claim C5 (counterexample to the claim as stated): in the DKIM
no-selector case the result has found=false and carries one DnsIssue, but
that issue's severity is info, not error or warning. -/
theorem resolveDkim_c5_counterexample :
    (resolveDkim "example.com" Option.none (.ok [])).found = false ∧
    (resolveDkim "example.com" Option.none (.ok [])).issues ≠ [] ∧
    ∀ i ∈ (resolveDkim "example.com" Option.none (.ok [])).issues,
      i.severity = Severity.info := by
  refine ⟨rfl, by decide, ?_⟩
  intro i hi
  simp [resolveDkim, selectorFalsy] at hi
  subst hi
  rfl

/-- Claim C5 as amended: for every policy resolver and every modelled
outcome, whenever the returned result has found=false (for MTA-STS:
foundTxt=false or foundPolicy=false) its issues list contains at least one
DnsIssue of severity error or warning — except resolveDkim's no-selector
case, whose single issue has severity info. -/
theorem resolvers_notfound_issue_spec :
    (∀ domain out, (resolveSpf domain out).found = false →
      ∃ i ∈ (resolveSpf domain out).issues,
        i.severity = Severity.error ∨ i.severity = Severity.warning) ∧
    (∀ domain out, (resolveDmarc domain out).found = false →
      ∃ i ∈ (resolveDmarc domain out).issues,
        i.severity = Severity.error ∨ i.severity = Severity.warning) ∧
    (∀ domain sel out, (resolveDkim domain sel out).found = false →
      (∃ i ∈ (resolveDkim domain sel out).issues,
        i.severity = Severity.error ∨ i.severity = Severity.warning) ∨
      (selectorFalsy sel = true ∧
        (resolveDkim domain sel out).issues = [⟨.info, "DKIM selector not provided",
          "Provide a selector to check DKIM (e.g., selector1)."⟩])) ∧
    (∀ domain sel out fetchOut, (resolveBimi domain sel out fetchOut).found = false →
      ∃ i ∈ (resolveBimi domain sel out fetchOut).issues,
        i.severity = Severity.error ∨ i.severity = Severity.warning) ∧
    (∀ out lim addrOf geoOf, (resolveMxWithGeo out lim addrOf geoOf).found = false →
      ∃ i ∈ (resolveMxWithGeo out lim addrOf geoOf).issues,
        i.severity = Severity.error ∨ i.severity = Severity.warning) ∧
    (∀ domain txtOut fetchOut,
      ((resolveMtasts domain txtOut fetchOut).foundTxt = false →
        ∃ i ∈ (resolveMtasts domain txtOut fetchOut).issues,
          i.severity = Severity.error ∨ i.severity = Severity.warning) ∧
      ((resolveMtasts domain txtOut fetchOut).foundPolicy = false →
        ∃ i ∈ (resolveMtasts domain txtOut fetchOut).issues,
          i.severity = Severity.error ∨ i.severity = Severity.warning)) ∧
    (∀ domain out, (resolveTlsRpt domain out).found = false →
      ∃ i ∈ (resolveTlsRpt domain out).issues,
        i.severity = Severity.error ∨ i.severity = Severity.warning) := by
  refine ⟨?_, ?_, ?_, ?_, ?_, ?_, ?_⟩
  · intro domain out h
    cases out with
    | err e =>
      refine ⟨⟨.error, "Failed to resolve SPF", e⟩, ?_, Or.inl rfl⟩
      simp only [resolveSpf]
      simp
    | ok txts =>
      rcases hfind : ((txts.map fun chunks => strJoinSep "" chunks).map strTrim).find?
          (fun t => strStarts (strToLower t) "v=spf1") with _ | r
      · refine ⟨⟨.error, "No SPF record found",
          "Publish a TXT record at " ++ domain ++ " with \"v=spf1 ...\""⟩,
          ?_, Or.inl rfl⟩
        simp only [resolveSpf]
        rw [hfind]
        simp
      · simp only [resolveSpf] at h
        rw [hfind] at h
        simp at h
  · intro domain out h
    cases out with
    | err e =>
      refine ⟨⟨.error, "Failed to resolve DMARC", e⟩, ?_, Or.inl rfl⟩
      simp only [resolveDmarc]
      simp
    | ok txts =>
      rcases hfind : ((txts.map fun chunks => strJoinSep "" chunks).map strTrim).find?
          (fun t => strStarts (strToLower t) "v=dmarc1") with _ | r
      · refine ⟨⟨.error, "No DMARC record found",
          "Publish a TXT record at " ++ ("_dmarc." ++ domain) ++
            " with \"v=DMARC1; p=...\""⟩, ?_, Or.inl rfl⟩
        simp only [resolveDmarc]
        rw [hfind]
        simp
      · simp only [resolveDmarc] at h
        rw [hfind] at h
        simp at h
  · intro domain sel out h
    by_cases hsel : selectorFalsy sel = true
    · right
      refine ⟨hsel, ?_⟩
      simp only [resolveDkim]
      rw [if_pos hsel]
    · left
      cases out with
      | err e =>
        refine ⟨⟨.error, "Failed to resolve DKIM", e⟩, ?_, Or.inl rfl⟩
        simp only [resolveDkim]
        rw [if_neg hsel]
        simp
      | ok txts =>
        rcases hfind : (match ((txts.map fun chunks => strJoinSep "" chunks).map
            strTrim).find? (fun t => strStarts (strToLower t) "v=dkim1;") with
          | some r => some r
          | Option.none => ((txts.map fun chunks => strJoinSep "" chunks).map
              strTrim).head?) with _ | r
        · refine ⟨⟨.error, "No DKIM record found",
            "Expected TXT record at " ++ ((jsOrElse sel "") ++ "._domainkey." ++ domain)⟩,
            ?_, Or.inl rfl⟩
          simp only [resolveDkim]
          rw [if_neg hsel, hfind]
          simp
        · by_cases hr : (r == "") = true
          · refine ⟨⟨.error, "No DKIM record found",
              "Expected TXT record at " ++ ((jsOrElse sel "") ++ "._domainkey." ++ domain)⟩,
              ?_, Or.inl rfl⟩
            simp only [resolveDkim]
            rw [if_neg hsel, hfind]
            simp [hr]
          · simp only [resolveDkim] at h
            rw [if_neg hsel, hfind] at h
            simp [hr] at h
  · intro domain sel out fetchOut h
    cases out with
    | err e =>
      refine ⟨⟨.error, "Failed to resolve BIMI", e⟩, ?_, Or.inl rfl⟩
      simp only [resolveBimi]
      simp
    | ok txts =>
      rcases hfind : (match ((txts.map fun chunks => strJoinSep "" chunks).map
          strTrim).find? (fun t => strStarts (strToLower t) "v=bimi1;") with
        | some r => some r
        | Option.none => ((txts.map fun chunks => strJoinSep "" chunks).map
            strTrim).head?) with _ | r
      · refine ⟨⟨.error, "No BIMI record found",
          "Expected TXT at " ++ (sel ++ "._bimi." ++ domain)⟩, ?_, Or.inl rfl⟩
        simp only [resolveBimi]
        rw [hfind]
        simp
      · by_cases hr : (r == "") = true
        · refine ⟨⟨.error, "No BIMI record found",
            "Expected TXT at " ++ (sel ++ "._bimi." ++ domain)⟩, ?_, Or.inl rfl⟩
          simp only [resolveBimi]
          rw [hfind]
          simp [hr]
        · rcases hlogo : kvLookup (kvEntries r) "l" with _ | u
          · simp only [resolveBimi] at h
            rw [hfind] at h
            simp [hr, hlogo] at h
          · by_cases hu : u ≠ "" ∧ isHttpUrl u
            · rcases hfetch : fetchOut u with rres | e
              · by_cases hok : rres.ok = true
                · simp only [resolveBimi] at h
                  rw [hfind] at h
                  simp [hr, hlogo, hu, hfetch, hok] at h
                · simp only [resolveBimi] at h
                  rw [hfind] at h
                  simp [hr, hlogo, hu, hfetch, hok] at h
              · refine ⟨⟨.error, "Failed to resolve BIMI", e⟩, ?_, Or.inl rfl⟩
                simp only [resolveBimi]
                rw [hfind]
                simp [hr, hlogo, hu, hfetch]
            · by_cases hu2 : u ≠ ""
              · have hhttp : ¬(isHttpUrl u = true) := fun hh => hu ⟨hu2, hh⟩
                simp only [resolveBimi] at h
                rw [hfind] at h
                simp [hr, hlogo, hu, hu2, hhttp] at h
              · simp only [resolveBimi] at h
                rw [hfind] at h
                simp [hr, hlogo, hu, hu2] at h
  · intro out lim addrOf geoOf h
    cases out with
    | err e =>
      refine ⟨⟨.error, "Failed to resolve MX", e⟩, ?_, Or.inl rfl⟩
      simp only [resolveMxWithGeo]
      simp
    | ok rs =>
      refine ⟨⟨.error, "No MX records found",
        "Add MX records pointing to your mail server/provider."⟩, ?_, Or.inl rfl⟩
      simp only [resolveMxWithGeo] at h ⊢
      simp only [decide_eq_false_iff_not, Nat.pos_iff_ne_zero, not_not] at h
      rw [List.length_map, List.length_eq_zero] at h
      simp [h]
  · intro domain txtOut fetchOut
    constructor
    · intro h
      cases txtOut with
      | err e =>
        refine ⟨⟨.error, "Failed to resolve MTA-STS TXT", e⟩, ?_, Or.inl rfl⟩
        simp only [resolveMtasts]
        simp
      | ok txts =>
        rcases hfind : (match ((txts.map fun chunks => strJoinSep "" chunks).map
            strTrim).find? (fun t => strStarts (strToLower t) "v=stsv1;") with
          | some r => some r
          | Option.none => ((txts.map fun chunks => strJoinSep "" chunks).map
              strTrim).head?) with _ | r
        · refine ⟨⟨.warning, "No MTA-STS TXT found",
            "Expected TXT at " ++ ("_mta-sts." ++ domain)⟩, ?_, Or.inr rfl⟩
          simp only [resolveMtasts]
          rw [hfind]
          simp
        · by_cases hr : (r == "") = true
          · refine ⟨⟨.warning, "No MTA-STS TXT found",
              "Expected TXT at " ++ ("_mta-sts." ++ domain)⟩, ?_, Or.inr rfl⟩
            simp only [resolveMtasts]
            rw [hfind]
            simp [hr]
          · simp only [resolveMtasts] at h
            rw [hfind] at h
            simp [hr] at h
    · intro h
      rcases hfetch : fetchOut with rres | e
      · by_cases hok : rres.ok = true
        · rw [hfetch] at h
          simp only [resolveMtasts] at h
          simp [hok] at h
        · refine ⟨⟨.warning, "Failed to fetch MTA-STS policy", toString rres.status⟩,
            ?_, Or.inr rfl⟩
          simp only [resolveMtasts]
          simp [hok]
      · refine ⟨⟨.error, "Error fetching MTA-STS policy", e⟩, ?_, Or.inl rfl⟩
        simp only [resolveMtasts]
        simp
  · intro domain out h
    cases out with
    | err e =>
      refine ⟨⟨.error, "Failed to resolve TLS-RPT", e⟩, ?_, Or.inl rfl⟩
      simp only [resolveTlsRpt]
      simp
    | ok txts =>
      rcases hfind : (match ((txts.map fun chunks => strJoinSep "" chunks).map
          strTrim).find? (fun t => strStarts (strToLower t) "v=tlsrptv1;") with
        | some r => some r
        | Option.none => ((txts.map fun chunks => strJoinSep "" chunks).map
            strTrim).head?) with _ | r
      · refine ⟨⟨.warning, "No TLS-RPT record found",
          "Expected TXT at " ++ ("_smtp._tls." ++ domain)⟩, ?_, Or.inr rfl⟩
        simp only [resolveTlsRpt]
        rw [hfind]
        simp
      · by_cases hr : (r == "") = true
        · refine ⟨⟨.warning, "No TLS-RPT record found",
            "Expected TXT at " ++ ("_smtp._tls." ++ domain)⟩, ?_, Or.inr rfl⟩
          simp only [resolveTlsRpt]
          rw [hfind]
          simp [hr]
        · simp only [resolveTlsRpt] at h
          rw [hfind] at h
          simp [hr] at h

/-- Witness for C5 at concrete inputs: an SPF lookup error yields one
error-severity issue, and an empty TLS-RPT answer yields one
warning-severity issue. -/
theorem resolvers_notfound_issue_spec_witness :
    (∃ i ∈ (resolveSpf "example.com" (.err "ETIMEOUT")).issues,
      i.severity = Severity.error ∨ i.severity = Severity.warning) ∧
    (∃ i ∈ (resolveTlsRpt "example.com" (.ok [])).issues,
      i.severity = Severity.error ∨ i.severity = Severity.warning) := by
  exact ⟨resolvers_notfound_issue_spec.1 "example.com" (.err "ETIMEOUT") rfl,
    resolvers_notfound_issue_spec.2.2.2.2.2.2 "example.com" (.ok []) rfl⟩

end DropEmail
